import Mathlib

/-!
Verification of the permission-matching and route-path core of the `plane`
API wrapper (files `plane/utils.py` and `plane/routes/paths.py`).

Python strings are modelled as Lean `String`; `str.split(".")` and
`".".join(...)` are modelled character-by-character (`splitChar` / `joinChar`)
following Python semantics: splitting on an explicit separator keeps empty
fields, so `"".split(".") == [""]` and `"a.".split(".") == ["a", ""]`.
-/

/-- Python `s.split(sep)` (single-character separator) on the character list:
splitting keeps empty fields and yields one more field than separators. -/
def splitChar (sep : Char) : List Char → List (List Char)
  | [] => [[]]
  | c :: cs =>
    if c = sep then [] :: splitChar sep cs
    else
      match splitChar sep cs with
      | [] => [[c]]
      | w :: ws => (c :: w) :: ws

/-- Python `sep.join(fields)` (single-character separator) on character lists. -/
def joinChar (sep : Char) : List (List Char) → List Char
  | [] => []
  | [w] => w
  | w :: ws => w ++ sep :: joinChar sep ws

/-- `required.split(".")` from `has_permissions` in `plane/utils.py`. -/
def splitDot (s : String) : List String :=
  (splitChar '.' s.data).map String.mk

/-- `".".join(required_list)` from `has_permissions` in `plane/utils.py`. -/
def joinDot (l : List String) : String :=
  String.mk (joinChar '.' (l.map String.data))

/-- The `while required_list:` loop of `has_permissions`: test the join of the
current segment list for membership, then pop the last segment.  The loop is
embedded with a fuel argument equal to the list length (the loop pops one
element per iteration, so the length bounds the iteration count). -/
def permLoopAux (permissions : List String) : Nat → List String → Bool
  | _, [] => false
  | 0, _ => false
  | fuel + 1, l =>
    if joinDot l ∈ permissions then true
    else permLoopAux permissions fuel l.dropLast

/-- `has_permissions(required, permissions)` from `plane/utils.py`. -/
def has_permissions (required : String) (permissions : List String) : Bool :=
  permLoopAux permissions (splitDot required).length (splitDot required)

example : has_permissions "guilds.bans.read" ["guilds"] = true := by decide
example : has_permissions "guilds.bans.read" ["guilds.bans"] = true := by decide
example : has_permissions "guilds.bans.read" ["tokens"] = false := by decide
example : has_permissions "" [""] = true := by decide
example : has_permissions "" [] = false := by decide

theorem splitChar_ne_nil (sep : Char) (cs : List Char) : splitChar sep cs ≠ [] := by
  cases cs with
  | nil => simp [splitChar]
  | cons c cs =>
    simp only [splitChar]
    by_cases h : c = sep
    · simp [h]
    · simp only [h, if_false]
      cases splitChar sep cs <;> simp

theorem joinChar_splitChar (sep : Char) (cs : List Char) :
    joinChar sep (splitChar sep cs) = cs := by
  induction cs with
  | nil => simp [splitChar, joinChar]
  | cons c cs ih =>
    simp only [splitChar]
    by_cases h : c = sep
    · simp only [h, if_true, if_pos]
      rcases hs : splitChar sep cs with _ | ⟨w, ws⟩
      · exact absurd hs (splitChar_ne_nil sep cs)
      · rw [hs] at ih
        simp [joinChar, ← ih, h]
    · simp only [h, if_false]
      rcases hs : splitChar sep cs with _ | ⟨w, ws⟩
      · exact absurd hs (splitChar_ne_nil sep cs)
      · rw [hs] at ih
        cases ws with
        | nil => simp [joinChar] at ih ⊢; exact ih
        | cons x xs => simp [joinChar] at ih ⊢; simp [← ih]

theorem joinDot_splitDot (s : String) : joinDot (splitDot s) = s := by
  simp only [splitDot, joinDot, List.map_map]
  have : (String.data ∘ String.mk) = id := rfl
  rw [this, List.map_id, joinChar_splitChar]

theorem splitDot_ne_nil (s : String) : splitDot s ≠ [] := by
  simp only [splitDot, ne_eq, List.map_eq_nil_iff]
  exact splitChar_ne_nil '.' s.data

/-- Characterisation of the truncation loop when run with fuel equal to the
length of the segment list: it succeeds exactly when the join of some
non-empty initial segment run (`l.take k`, `0 < k`) is a granted entry. -/
theorem permLoopAux_iff (perms : List String) :
    ∀ (fuel : Nat) (l : List String), fuel = l.length →
      (permLoopAux perms fuel l = true ↔
        ∃ k, 0 < k ∧ k ≤ l.length ∧ joinDot (l.take k) ∈ perms) := by
  intro fuel
  induction fuel with
  | zero =>
    intro l hl
    obtain rfl : l = [] := by
      cases l with
      | nil => rfl
      | cons s t => simp at hl
    simp [permLoopAux]
    omega
  | succ n ih =>
    intro l hl
    cases l with
    | nil => simp at hl
    | cons s t =>
      simp only [permLoopAux]
      by_cases hm : joinDot (s :: t) ∈ perms
      · simp only [hm, if_true, true_iff]
        refine ⟨(s :: t).length, by simp, le_refl _, ?_⟩
        rw [List.take_length]
        exact hm
      · simp only [hm, if_false]
        have hlen : n = ((s :: t).dropLast).length := by
          simp only [List.length_dropLast]
          omega
        rw [ih ((s :: t).dropLast) hlen]
        have htake : ∀ k, k ≤ n → ((s :: t).dropLast).take k = (s :: t).take k := by
          intro k hk
          rw [List.dropLast_eq_take, List.take_take]
          congr 1
          simp only [List.length_cons] at hl ⊢
          omega
        constructor
        · rintro ⟨k, hk0, hkle, hkmem⟩
          rw [← hlen] at hkle
          refine ⟨k, hk0, by omega, ?_⟩
          rwa [htake k hkle] at hkmem
        · rintro ⟨k, hk0, hkle, hkmem⟩
          have hkn : k ≤ n := by
            rcases Nat.lt_or_ge k (s :: t).length with h | h
            · omega
            · exfalso
              have : k = (s :: t).length := le_antisymm hkle h
              rw [this, List.take_length] at hkmem
              exact hm hkmem
          refine ⟨k, hk0, by rw [← hlen]; exact hkn, ?_⟩
          rwa [htake k hkn]

/-- `has_permissions R G` holds exactly when the join of some non-empty
initial run of the dot-segments of `R` is a member of `G`. -/
theorem has_permissions_iff (R : String) (G : List String) :
    has_permissions R G = true ↔
      ∃ k, 0 < k ∧ k ≤ (splitDot R).length ∧ joinDot ((splitDot R).take k) ∈ G :=
  permLoopAux_iff G (splitDot R).length (splitDot R) rfl


theorem joinChar_cons_eq_append (sep : Char) (w : List Char) (ws : List (List Char)) :
    ∃ r, joinChar sep (w :: ws) = w ++ r := by
  cases ws with
  | nil => exact ⟨[], by simp [joinChar]⟩
  | cons x xs => exact ⟨sep :: joinChar sep (x :: xs), rfl⟩

theorem joinDot_cons_ne_empty (s : String) (xs : List String) (hs : s ≠ "") :
    joinDot (s :: xs) ≠ "" := by
  obtain ⟨r, hr⟩ := joinChar_cons_eq_append '.' s.data (xs.map String.data)
  intro h
  apply hs
  have hdata : (joinDot (s :: xs)).data = [] := by rw [h]
  rw [joinDot] at hdata
  simp only [List.map_cons] at hdata
  rw [hr] at hdata
  have hsd : s.data = [] := (List.append_eq_nil.mp hdata).1
  exact String.ext hsd

/-- C1: `has_permissions R G` returns true iff the join of some non-empty
prefix of the dot-segment list of `R` is an exact (case-sensitive) member of
`G`; the full string (join of all segments) being granted suffices, since it
is tested first, and the loop returns false once the segment list is empty. -/
theorem has_permissions_truncation_spec (R : String) (G : List String) :
    (has_permissions R G = true ↔
      ∃ l, l ≠ [] ∧ l <+: splitDot R ∧ joinDot l ∈ G) ∧
    (joinDot (splitDot R) ∈ G → has_permissions R G = true) ∧
    (∀ fuel, permLoopAux G fuel [] = false) := by
  refine ⟨?_, ?_, ?_⟩
  · rw [has_permissions_iff]
    constructor
    · rintro ⟨k, h0, hk, hmem⟩
      refine ⟨(splitDot R).take k, ?_,
        ⟨(splitDot R).drop k, List.take_append_drop k _⟩, hmem⟩
      have hlt : ((splitDot R).take k).length = k := by
        rw [List.length_take]
        omega
      intro hnil
      rw [hnil] at hlt
      simp at hlt
      omega
    · rintro ⟨l, hnil, ⟨t, ht⟩, hmem⟩
      refine ⟨l.length, List.length_pos.mpr hnil, ?_, ?_⟩
      · rw [← ht]
        simp
      · have hl : (splitDot R).take l.length = l := by
          rw [← ht, List.take_left]
        rw [hl]
        exact hmem
  · intro h
    rw [has_permissions_iff]
    exact ⟨(splitDot R).length, List.length_pos.mpr (splitDot_ne_nil R), le_refl _,
      by rw [List.take_length]; exact h⟩
  · intro fuel
    cases fuel <;> rfl

/-- C5: `has_permissions` is monotonic in the granted list: enlarging the
granted list can only turn a false result into a true one, never the reverse. -/
theorem has_permissions_monotone (R : String) (G G' : List String)
    (hsub : ∀ x ∈ G, x ∈ G') (h : has_permissions R G = true) :
    has_permissions R G' = true := by
  rw [has_permissions_iff] at h ⊢
  obtain ⟨k, h0, hk, hmem⟩ := h
  exact ⟨k, h0, hk, hsub _ hmem⟩

theorem has_permissions_monotone_w : has_permissions "a.b" ["a", "b"] = true :=
  has_permissions_monotone "a.b" ["a"] ["a", "b"] (by decide) (by decide)

/-- C6: verbatim membership suffices: if `R` itself is granted, the first
iteration of the loop rejoins the split segments into exactly `R` and
`has_permissions R G` returns true. -/
theorem has_permissions_of_mem (R : String) (G : List String) (h : R ∈ G) :
    has_permissions R G = true := by
  rw [has_permissions_iff]
  refine ⟨(splitDot R).length, List.length_pos.mpr (splitDot_ne_nil R), le_refl _, ?_⟩
  rw [List.take_length, joinDot_splitDot]
  exact h

theorem has_permissions_of_mem_w :
    has_permissions "guilds.bans" ["tokens", "guilds.bans"] = true :=
  has_permissions_of_mem "guilds.bans" ["tokens", "guilds.bans"] (by decide)

/-- C7: the degenerate empty-permission cases: the empty string is a single
empty segment that matches itself, and nothing matches an empty granted list. -/
theorem has_permissions_empty_string_cases :
    has_permissions "" [""] = true ∧ has_permissions "" [] = false := by decide

/-- C10: a granted list holding only the empty string is not a wildcard: when
the first dot-segment of `R` is non-empty, every joined truncation still starts
with that segment, so `has_permissions R [""]` is false. -/
theorem has_permissions_only_blank_granted (R : String) (a : String)
    (hhead : (splitDot R).head? = some a) (ha : a ≠ "") :
    has_permissions R [""] = false := by
  by_contra hcon
  rw [Bool.not_eq_false, has_permissions_iff] at hcon
  obtain ⟨k, h0, hk, hmem⟩ := hcon
  rcases hsplit : splitDot R with _ | ⟨s, t⟩
  · exact splitDot_ne_nil R hsplit
  rw [hsplit] at hhead hmem
  simp only [List.head?_cons, Option.some.injEq] at hhead
  obtain ⟨m, rfl⟩ : ∃ m, k = m + 1 := ⟨k - 1, by omega⟩
  rw [List.take_succ_cons] at hmem
  simp only [List.mem_singleton] at hmem
  exact joinDot_cons_ne_empty s (t.take m) (hhead ▸ ha) hmem

theorem has_permissions_only_blank_granted_w :
    has_permissions "guilds.bans.read" [""] = false :=
  has_permissions_only_blank_granted "guilds.bans.read" "guilds" (by decide) (by decide)

/-- The HTTP client object: its `permissions` attribute is `none` for Python
`None` (the granted set was never fetched) and `some` for a fetched list. -/
structure HTTPClient where
  permissions : Option (List String)

/-- An endpoint object as read by the wrapper: it exposes the HTTP client as
its `_http` attribute (`self._http.permissions`). -/
structure HTTPAwareEndpoint where
  _http : HTTPClient

/-- Outcome of a Python call: a returned value or a raised exception.
`assertionError` and `accessException` are the two exceptions the guard itself
raises; `error` stands for any exception raised by the wrapped coroutine. -/
inductive PyResult (β : Type) where
  | ok : β → PyResult β
  | assertionError : String → PyResult β
  | accessException : String → PyResult β
  | error : String → PyResult β

/-- The wrapper produced by `with_permission_check(required)` in
`plane/utils.py`, applied to the decorated `function`, to `self` and to the
remaining arguments `args`.  Alongside the Python outcome it returns the list
of invocations of the wrapped `function` (each recording the `self` and
argument values passed), so "the wrapped operation is never invoked" is
expressible as that list being empty. -/
def with_permission_check {α β : Type} (required : String)
    (function : HTTPAwareEndpoint → α → PyResult β)
    (self : HTTPAwareEndpoint) (args : α) :
    PyResult β × List (HTTPAwareEndpoint × α) :=
  match self._http.permissions with
  | none =>
    (PyResult.assertionError
      "Permissions is \"None\"; were permissions not yet fetched or unexpectedly modified?",
     [])
  | some permissions =>
    if ! has_permissions required permissions then
      (PyResult.accessException required, [])
    else
      (function self args, [(self, args)])

/-- C2: when the granted-permission holder is unset (`None`), the guard raises
the fatal `AssertionError` (not the access-denied error) and the wrapped
operation is never invoked (the invocation list is empty). -/
theorem with_permission_check_unset_fatal {α β : Type} (required : String)
    (function : HTTPAwareEndpoint → α → PyResult β)
    (self : HTTPAwareEndpoint) (args : α)
    (h : self._http.permissions = none) :
    with_permission_check required function self args =
      (PyResult.assertionError
        "Permissions is \"None\"; were permissions not yet fetched or unexpectedly modified?",
       []) := by
  simp [with_permission_check, h]

theorem with_permission_check_unset_fatal_w :
    with_permission_check "x" (fun (_ : HTTPAwareEndpoint) (n : Nat) => PyResult.ok n)
        { _http := { permissions := none } } 0 =
      (PyResult.assertionError
        "Permissions is \"None\"; were permissions not yet fetched or unexpectedly modified?",
       []) :=
  with_permission_check_unset_fatal "x"
    (fun (_ : HTTPAwareEndpoint) (n : Nat) => PyResult.ok n)
    { _http := { permissions := none } } 0 rfl

/-- C3: when the granted set is populated (possibly empty) and the match
fails, the guard raises `AccessException` carrying exactly the
required-permission string captured at wrap time, and the wrapped operation
is never invoked (the invocation list is empty). -/
theorem with_permission_check_denied {α β : Type} (required : String)
    (function : HTTPAwareEndpoint → α → PyResult β)
    (self : HTTPAwareEndpoint) (args : α) (perms : List String)
    (hp : self._http.permissions = some perms)
    (h : has_permissions required perms = false) :
    with_permission_check required function self args =
      (PyResult.accessException required, []) := by
  simp [with_permission_check, hp, h]

theorem with_permission_check_denied_w :
    with_permission_check "x" (fun (_ : HTTPAwareEndpoint) (n : Nat) => PyResult.ok n)
        { _http := { permissions := some [] } } 0 =
      (PyResult.accessException "x", []) :=
  with_permission_check_denied "x"
    (fun (_ : HTTPAwareEndpoint) (n : Nat) => PyResult.ok n)
    { _http := { permissions := some [] } } 0 [] rfl (by decide)

/-- C4: when the match succeeds, the guard invokes the wrapped operation
exactly once with the original `self` and arguments unchanged, and returns its
outcome (value or raised exception) verbatim. -/
theorem with_permission_check_pass_through {α β : Type} (required : String)
    (function : HTTPAwareEndpoint → α → PyResult β)
    (self : HTTPAwareEndpoint) (args : α) (perms : List String)
    (hp : self._http.permissions = some perms)
    (h : has_permissions required perms = true) :
    with_permission_check required function self args =
      (function self args, [(self, args)]) := by
  simp [with_permission_check, hp, h]

theorem with_permission_check_pass_through_w :
    with_permission_check "x.y" (fun (_ : HTTPAwareEndpoint) (n : Nat) => PyResult.ok (n + 1))
        { _http := { permissions := some ["x"] } } 5 =
      (PyResult.ok 6, [({ _http := { permissions := some ["x"] } }, 5)]) :=
  with_permission_check_pass_through "x.y"
    (fun (_ : HTTPAwareEndpoint) (n : Nat) => PyResult.ok (n + 1))
    { _http := { permissions := some ["x"] } } 5 ["x"] rfl (by decide)

/-- The `Guilds` route-path node of `plane/routes/paths.py`: its constructor
stores the guild id and the route string built from it. -/
structure Guilds where
  _guild_id : Int
  _route : String

/-- `Guilds.__init__(guild_id)`: stores the id and `f"/guilds/{guild_id}"`. -/
def Guilds.init (guild_id : Int) : Guilds :=
  { _guild_id := guild_id, _route := "/guilds/" ++ toString guild_id }

/-- The `route` property of `Guilds`. -/
def Guilds.route (g : Guilds) : String := g._route

/-- The `guild_id` property of `Guilds`. -/
def Guilds.guild_id (g : Guilds) : Int := g._guild_id

/-- The `Tokens` route-path node of `plane/routes/paths.py`. -/
structure Tokens where

/-- The `route` property of `Tokens`: a constant path. -/
def Tokens.route (_ : Tokens) : String := "/tokens/@current"

/-- The `URLs` route-path node of `plane/routes/paths.py`: its constructor
stores the raw url and the route string built from it (no URL-encoding). -/
structure URLs where
  _url : String
  _route : String

/-- `URLs.__init__(url)`: stores the raw url and `f"/urls/{url}"`. -/
def URLs.init (url : String) : URLs :=
  { _url := url, _route := "/urls/" ++ url }

/-- The `route` property of `URLs`. -/
def URLs.route (u : URLs) : String := u._route

/-- The `url` property of `URLs`. -/
def URLs.url (u : URLs) : String := u._url

/-- The `Users` route-path node of `plane/routes/paths.py`: its constructor
stores the user id and the route string built from it. -/
structure Users where
  _user_id : Int
  _route : String

/-- `Users.__init__(user_id)`: stores the id and `f"/users/{user_id}"`. -/
def Users.init (user_id : Int) : Users :=
  { _user_id := user_id, _route := "/users/" ++ toString user_id }

/-- The `route` property of `Users`. -/
def Users.route (u : Users) : String := u._route

/-- The `user_id` property of `Users`. -/
def Users.user_id (u : Users) : Int := u._user_id

/-- The `pronouns` child path of `Users`. -/
def Users.pronouns (u : Users) : String := u._route ++ "/pronouns"

/-- The `bans` child path of `Users`. -/
def Users.bans (u : Users) : String := u._route ++ "/bans"

/-- The `whitelists` child path of `Users`. -/
def Users.whitelists (u : Users) : String := u._route ++ "/whitelists"

/-- The `reputation` child path of `Users`: note the abbreviated suffix. -/
def Users.reputation (u : Users) : String := u._route ++ "/rep"

example : (Users.init 42).route = "/users/42" := by decide
example : (Users.init 42).bans = "/users/42/bans" := by decide
example : (Users.init 42).reputation = "/users/42/rep" := by decide
example : (Guilds.init 7).route = "/guilds/7" := by decide
example : (URLs.init "example.com").route = "/urls/example.com" := by decide

/-- C8: a `Users` node built from `u` has route `"/users/" ++ toString u`,
returns `u` unchanged from its `user_id` accessor, and its four child paths
are the route plus the fixed suffixes, the reputation child using the
abbreviated segment `rep`. -/
theorem users_node_paths (u : Int) :
    (Users.init u).route = "/users/" ++ toString u ∧
    (Users.init u).user_id = u ∧
    (Users.init u).pronouns = (Users.init u).route ++ "/pronouns" ∧
    (Users.init u).bans = (Users.init u).route ++ "/bans" ∧
    (Users.init u).whitelists = (Users.init u).route ++ "/whitelists" ∧
    (Users.init u).reputation = (Users.init u).route ++ "/rep" :=
  ⟨rfl, rfl, rfl, rfl, rfl, rfl⟩

/-- C9: a `Guilds` node built from `g` has route `"/guilds/" ++ toString g`
and returns `g` unchanged; a `URLs` node built from `s` has route
`"/urls/" ++ s` with no encoding applied and returns `s` unchanged; a
`Tokens` node has the constant route `"/tokens/@current"`. -/
theorem guilds_urls_tokens_paths (g : Int) (s : String) :
    (Guilds.init g).route = "/guilds/" ++ toString g ∧
    (Guilds.init g).guild_id = g ∧
    (URLs.init s).route = "/urls/" ++ s ∧
    (URLs.init s).url = s ∧
    Tokens.route {} = "/tokens/@current" :=
  ⟨rfl, rfl, rfl, rfl, rfl⟩
